import Mathlib

/-!
Verification of the proxyget repository's throttled progress-reporting
download pipeline, as a shallow embedding in Lean 4.

Conventions of the embedding:
* Python floats are modelled as rationals (`ℚ`); the clock (`time.time()`)
  is modelled as an explicit `now : ℚ` argument (one reading per operation).
* Fallible Python code returns `Except PyError _`; Python's `/` on a zero
  denominator is modelled by an explicit `ZeroDivisionError` branch.
* Output (`print`, `file.write`) is modelled as lists of strings returned
  alongside the new state.
* Sources: src/proxyget/utils.py, src/proxyget/timers.py,
  src/proxyget/proxyget.py.
-/

/-- Python exceptions surfaced by the embedded code. -/
inductive PyError where
  | typeError (msg : String)
  | valueError (msg : String)
  | zeroDivisionError (msg : String)
  | attributeError (msg : String)
  deriving DecidableEq

/-! ## Generic helpers used by the embedding -/

/-- Truncation toward zero, the behaviour of Python's `int()` on a float. -/
def pyInt (q : ℚ) : ℤ :=
  if 0 ≤ q then ⌊q⌋ else -⌊-q⌋

/-- Round a rational to the nearest integer, ties to even: the rounding of
Python's fixed-point float formatting. -/
def roundHalfEven (q : ℚ) : ℤ :=
  let f : ℤ := ⌊q⌋
  let r : ℚ := q - f
  if r < 1/2 then f
  else if 1/2 < r then f + 1
  else if f % 2 = 0 then f else f + 1

/-- Left-pad a string with `c` to width `w`. -/
def padLeftWith (c : Char) (w : ℕ) (s : String) : String :=
  String.mk (List.replicate (w - s.length) c ++ s.data)

/-- Split a list into consecutive blocks of at most `n` elements (structural
fuel recursion; the fuel is always instantiated with the list's length).
Models both `response.iter_content(n)` chunking and digit grouping. -/
def chunksOfGo (n : ℕ) : ℕ → List α → List (List α)
  | _, [] => []
  | 0, _ => []
  | fuel + 1, x :: xs => (x :: xs).take n :: chunksOfGo n fuel ((x :: xs).drop n)

/-- Split a list into consecutive blocks of at most `n` elements. -/
def chunksOf (n : ℕ) (l : List α) : List (List α) :=
  chunksOfGo n l.length l

/-- Insert the digit-grouping separator `sep` every three digits from the
right, as Python's `,`/`_` format options do on the integer part. -/
def groupDigits (sep : String) (s : String) : String :=
  if sep = "" then s
  else String.intercalate sep
    (((chunksOf 3 s.data.reverse).map (fun c => String.mk c.reverse)).reverse)

/-- Fixed-point rendering of a rational with `sig` digits after the decimal
point, digit grouping `sep` on the integer part, then left space padding to
width `pad`: Python's format spec `>{pad}{sep}.{sig}f` applied to a float. -/
def pyFormatF (value : ℚ) (sig : ℕ) (pad : ℕ) (sep : String) : String :=
  let a : ℚ := |value|
  let n : ℕ := (roundHalfEven (a * 10 ^ sig)).toNat
  let ip : ℕ := n / 10 ^ sig
  let fp : ℕ := n % 10 ^ sig
  let ipStr : String := groupDigits sep (toString ip)
  let core : String :=
    (if value < 0 then "-" else "") ++ ipStr ++
      (if sig = 0 then "" else "." ++ padLeftWith '0' sig (toString fp))
  padLeftWith ' ' pad core

/-- Scientific-notation rendering of a rational with `sig` digits of
mantissa precision: Python's format spec `.{sig}e` applied to a float
(mantissa in `[1, 10)`, exponent always signed and at least two digits). -/
def pyFormatE (value : ℚ) (sig : ℕ) (pad : ℕ) : String :=
  let core : String :=
    if value = 0 then
      "0" ++ (if sig = 0 then "" else "." ++ String.mk (List.replicate sig '0'))
        ++ "e+00"
    else
      let a : ℚ := |value|
      let d : ℤ := (Nat.log 10 a.num.natAbs : ℤ) - (Nat.log 10 a.den : ℤ)
      let e : ℤ := if a < (10 : ℚ) ^ d then d - 1 else d
      let n : ℤ := roundHalfEven (a / (10 : ℚ) ^ e * 10 ^ sig)
      let (n, e) : ℤ × ℤ :=
        if n = 10 ^ (sig + 1) then ((10 : ℤ) ^ sig, e + 1) else (n, e)
      let ds : String := toString n.toNat
      let mant : String :=
        (String.mk (ds.data.take 1)) ++
          (if sig = 0 then "" else "." ++ String.mk (ds.data.drop 1))
      (if value < 0 then "-" else "") ++ mant ++ "e" ++
        (if e < 0 then "-" else "+") ++ padLeftWith '0' 2 (toString e.natAbs)
  padLeftWith ' ' pad core

/-- Split a character list at every occurrence of `sep` (occurrences are
dropped; `n` separators yield `n+1` groups). -/
def splitChar (sep : Char) : List Char → List (List Char)
  | [] => [[]]
  | c :: cs =>
      let r := splitChar sep cs
      if c = sep then [] :: r
      else
        match r with
        | [] => [[c]]
        | g :: gs => (c :: g) :: gs

/-- ASCII lower-casing of a character, the fragment of Python's
`str.lower()` relevant to HTTP header names. -/
def charLower (c : Char) : Char :=
  if 'A' ≤ c ∧ c ≤ 'Z' then Char.ofNat (c.toNat + 32) else c

/-- ASCII lower-casing of a string. -/
def strLower (s : String) : String :=
  String.mk (s.data.map charLower)

/-- Parse a simple decimal string (digits, optionally one dot) to a
rational: the fragment of Python's `float()` exercised by content-length
header values. -/
def pyFloat? (s : String) : Option ℚ :=
  let natOf : List Char → Option ℕ := fun cs =>
    if cs.all Char.isDigit then
      some (cs.foldl (fun acc c => acc * 10 + (c.toNat - '0'.toNat)) 0)
    else none
  match splitChar '.' s.data with
  | [i] =>
      if i = [] then none else (natOf i).map (fun n => (n : ℚ))
  | [i, f] =>
      if i = [] ∧ f = [] then none
      else
        match natOf i, natOf f with
        | some ni, some nf => some ((ni : ℚ) + (nf : ℚ) / 10 ^ f.length)
        | _, _ => none
  | _ => none

/-! ## utils.py -/

/-- Embedding of `utils.dict_get_ignore_case` (utils.py lines 18-36): the
mapping is an association list; first an exact-key lookup, then a scan
comparing lowercased keys, then the default. -/
def dict_get_ignore_case {V : Type} (d : List (String × V)) (key : String)
    (default : Option V := none) : Option V :=
  match d.find? (fun kv => kv.1 = key) with
  | some kv => some kv.2
  | none =>
      match d.find? (fun kv => strLower kv.1 = strLower key) with
      | some kv => some kv.2
      | none => default

/-- Embedding of `utils.pairwise` (utils.py lines 39-42):
`zip(tee(itr)) with one advanced` is `l.zip l.tail`. -/
def pairwise {V : Type} (l : List V) : List (V × V) :=
  l.zip l.tail

/-- The byte-prefix table of `utils.write_bytes`: the keys of the dict
`{0: '', k: 'k', k**2: 'M', k**3: 'G', k**4: 'T'}` in insertion order. -/
def byteKeys : List ℚ := [0, 1024, 1024 ^ 2, 1024 ^ 3, 1024 ^ 4]

/-- The symbol the `write_bytes` dict associates to a key. -/
def byteSym (key : ℚ) : String :=
  if key = 1024 then "k"
  else if key = 1024 ^ 2 then "M"
  else if key = 1024 ^ 3 then "G"
  else if key = 1024 ^ 4 then "T"
  else ""

/-- Embedding of `utils.write_bytes` (utils.py lines 45-69).  `fmt='.2f'` is
modelled by the digit count `sig` (default 2).  Faithfulness notes:
* the `for ... break / else` over `pairwise(d)` selects the first key pair
  with `key1 <= num < key2`, else the last pair's second key `1024**4`;
* `num / key` with the selected key `0` (every `num < 1024`) raises
  `ZeroDivisionError` in Python, modelled by the explicit error branch;
* the source line `sym = d[key] + 'B' if not bits else 'b'` parses as
  `sym = (d[key] + 'B') if not bits else 'b'`, so the prefix is dropped
  when `bits` is set; the embedding mirrors that precedence. -/
def write_bytes (num : ℚ) (sig : ℕ := 2) (bits : Bool := false) :
    Except PyError String :=
  if num < 0 then
    .error (.valueError "less than 0")
  else
    let key : ℚ :=
      (((pairwise byteKeys).find?
          (fun kk => decide (kk.1 ≤ num ∧ num < kk.2))).map Prod.fst).getD
        (1024 ^ 4)
    let sym : String := if !bits then byteSym key ++ "B" else "b"
    if key = (0 : ℚ) then .error (.zeroDivisionError "float division by zero")
    else .ok (pyFormatF (num / key) sig 0 "" ++ " " ++ sym)

/-! ## timers.py -/

/-- Embedding of `timers.TimeUnit` (timers.py lines 47-83).  The
`__post_init__` plural default (`name + 's'`) is applied by `TimeUnit.make`,
matching every entry of `time_units` (all constructed with `plural=None`). -/
structure TimeUnit where
  name : String
  symbol : String
  conversion : ℚ
  lower_limit : ℚ
  plural : String
  deriving DecidableEq

/-- Constructor applying the `__post_init__` plural default. -/
def TimeUnit.make (name symbol : String) (conversion lower_limit : ℚ) :
    TimeUnit :=
  ⟨name, symbol, conversion, lower_limit, name ++ "s"⟩

/-- Embedding of `TimeUnit.get_name` (timers.py lines 70-71). -/
def TimeUnit.get_name (u : TimeUnit) (number : ℚ) : String :=
  if number = 1 then u.name else u.plural

/-- The separator validation of `TimeUnit._make_fmt` (timers.py lines 60-68);
only the `'f'` and `'e'` format characters are modelled, the only two that
`time_diff_repr` passes. -/
def TimeUnit.fmt_value (value : ℚ) (sig pad : ℕ) (sep : String) (fmt : Char) :
    Except PyError String :=
  if ¬(sep = "" ∨ sep = "_" ∨ sep = ",") then
    .error (.valueError "sep not in valid seps")
  else if ¬(fmt = 'f' ∨ fmt = 'e') then
    .error (.valueError "fmt not in valid fmts")
  else if fmt = 'e' then .ok (pyFormatE value sig pad)
  else .ok (pyFormatF value sig pad sep)

/-- Embedding of `TimeUnit.long_form` (timers.py lines 73-77). -/
def TimeUnit.long_form (u : TimeUnit) (seconds : ℚ) (sig : ℕ := 1)
    (pad : ℕ := 0) (sep : String := "") (fmt : Char := 'f') :
    Except PyError String :=
  let value := seconds / u.conversion
  (TimeUnit.fmt_value value sig pad sep fmt).map
    (fun s => s ++ " " ++ u.get_name value)

/-- Embedding of `TimeUnit.short_form` (timers.py lines 79-83). -/
def TimeUnit.short_form (u : TimeUnit) (seconds : ℚ) (sig : ℕ := 1)
    (pad : ℕ := 0) (sep : String := "") (fmt : Char := 'f') :
    Except PyError String :=
  let value := seconds / u.conversion
  (TimeUnit.fmt_value value sig pad sep fmt).map
    (fun s => s ++ " " ++ u.symbol)

/-- Embedding of the `time_units` ordered dict (timers.py lines 86-95), as
an association list in insertion order. -/
def time_units : List (String × TimeUnit) :=
  [("ns", TimeUnit.make "nanosecond" "ns" (1 / 1000000000) (1 / 10000000000)),
   ("us", TimeUnit.make "microsecond" "μs" (1 / 1000000) (1 / 10000000)),
   ("ms", TimeUnit.make "millisecond" "ms" (1 / 1000) (1 / 10000)),
   ("s", TimeUnit.make "second" "s" 1 (1 / 10)),
   ("m", TimeUnit.make "minute" "min" 60 120),
   ("h", TimeUnit.make "hour" "hr" 3600 (120 * 60)),
   ("d", TimeUnit.make "day" "d" (24 * 3600) (48 * 3600)),
   ("y", TimeUnit.make "year" "yr" (1461 * 24 * 3600 / 4) (265 * 24 * 3600))]

/-- The automatic unit selection of `time_diff_repr` (timers.py lines
125-131): scan `reversed(time_units.items())` and pick the first key whose
`lower_limit` is at most `diff` (the `for ... break`); with no match
(the `for`'s `else`), `'e'` unless the difference is exactly zero, in which
case `'ns'`. -/
def autoUnit (diff : ℚ) : String :=
  match time_units.reverse.find? (fun ku => decide (ku.2.lower_limit ≤ diff)) with
  | some ku => ku.1
  | none => if diff ≠ 0 then "e" else "ns"

/-- Embedding of `timers.time_diff_repr` (timers.py lines 98-150). -/
def time_diff_repr (unix_start : ℚ) (unix_end : ℚ := 0)
    (unit? : Option String := none) (long_form : Bool := true)
    (sig : ℕ := 1) (pad : ℕ := 0) (sep : String := "") :
    Except PyError String :=
  let diff : ℚ := |unix_end - unix_start|
  let chosen : Except PyError String :=
    match unit? with
    | none => .ok (autoUnit diff)
    | some u =>
        if u = "e" ∨ (time_units.find? (fun ku => ku.1 = u)).isSome then .ok u
        else .error (.valueError "unit not in valid values")
  match chosen with
  | .error e => .error e
  | .ok unit =>
      let (unit, fmt) : String × Char :=
        if unit = "e" then ("s", 'e') else (unit, 'f')
      match time_units.find? (fun ku => ku.1 = unit) with
      | none => .error (.valueError "unit not in valid values")
      | some ku =>
          if long_form then ku.2.long_form diff sig pad sep fmt
          else ku.2.short_form diff sig pad sep fmt

/-- Embedding of `timers.Stopwatch` (timers.py lines 167-209): the one
mutable timestamp `_tic`; `time.time()` is the explicit `now` argument. -/
structure Stopwatch where
  tic : ℚ
  deriving DecidableEq

/-- Embedding of `Stopwatch.restart` (timers.py lines 179-180). -/
def Stopwatch.restart (now : ℚ) (_s : Stopwatch) : Stopwatch :=
  ⟨now⟩

/-- Embedding of the `Stopwatch.toc` property (timers.py lines 186-188). -/
def Stopwatch.toc (now : ℚ) (s : Stopwatch) : ℚ :=
  now - s.tic

/-- Embedding of `timers.Timer` (timers.py lines 299-334): a `Stopwatch`
(field `tic`) plus `checktime` and the gate stopwatch `checker`.
`Timer.__init__` reads the clock for both `tic` and `checker`. -/
structure Timer where
  tic : ℚ
  checktime : ℚ
  checker : Stopwatch
  deriving DecidableEq

/-- Embedding of `Timer.__init__` (timers.py lines 304-307). -/
def Timer.init (now : ℚ) (checktime : ℚ) : Timer :=
  ⟨now, checktime, ⟨now⟩⟩

/-- Embedding of `Timer.restart` (timers.py lines 315-317):
`checker.restart()` then `Stopwatch.restart`. -/
def Timer.restart (now : ℚ) (t : Timer) : Timer :=
  ⟨now, t.checktime, t.checker.restart now⟩

/-- Embedding of `Timer.check` (timers.py lines 319-324): fire (and restart
the gate stopwatch) exactly when strictly more than `checktime` seconds have
elapsed on `checker`; otherwise leave every field unchanged. -/
def Timer.check (now : ℚ) (t : Timer) : Bool × Timer :=
  if t.checker.toc now > t.checktime then
    (true, { t with checker := t.checker.restart now })
  else (false, t)

/-! ## utils.ProgressBar -/

/-- The spinner cycle of utils.py line 92, `itertools.cycle` over the four
characters backslash, pipe, slash, dash: the character produced by the k-th
`next()`. -/
def cycleChar (k : ℕ) : Char :=
  match k % 4 with
  | 0 => '\\'
  | 1 => '|'
  | 2 => '/'
  | _ => '-'

/-- Embedding of `utils.ProgressBar` (utils.py lines 72-126).  The source
field `prefix` is named `pre` here (`prefix` is a Lean keyword); `timer` and
`cycle` model `_timer` and the position of the `_cycle` iterator; the output
file handle is modelled by returning written strings.  The single-character
assertions of `__post_init__` hold by typing (`Char`). -/
structure ProgressBar where
  update_rate : ℚ := 1/2
  pre : String := "Progress"
  suffix : String := "complete"
  precision : ℕ := 1
  length : ℕ := 80
  progress_char : Char := '█'
  empty_char : Char := '_'
  timer : Timer
  cycle : ℕ := 0
  deriving DecidableEq

/-- A `ProgressBar()` with all defaults, whose `__post_init__` created its
`Timer(update_rate)` at clock reading `now` (utils.py lines 87-93). -/
def ProgressBar.make (now : ℚ) : ProgressBar :=
  { timer := Timer.init now (1/2) }

/-- The single overwritable line written by `print_progress` (utils.py
line 120): `\r{prefix} |{bar}| {percent} {suffix}\r`. -/
def progressLine (pre bar percent suffix : String) : String :=
  "\r" ++ pre ++ " |" ++ bar ++ "| " ++ percent ++ " " ++ suffix ++ "\r"

/-- The bar-and-render step of `print_progress` (utils.py lines 109-125),
after the ticker gate, on the already normalised fraction: percent string,
filled cell count `int(fraction * length)`, fill/spinner/empty glyphs, the
written line, and the trailing newline when the fraction is exactly 1.
Returns the bar (with the spinner cycle advanced when a spinner was drawn)
and the list of strings written to the output file. -/
def ProgressBar.renderFrame (pb : ProgressBar) (fraction : ℚ) :
    ProgressBar × List String :=
  let percent : String := pyFormatF (fraction * 100) pb.precision 0 "" ++ "%"
  let filled : ℤ := pyInt (fraction * pb.length)
  let left_fill : List Char := List.replicate filled.toNat pb.progress_char
  let right_fill : List Char :=
    List.replicate ((pb.length : ℤ) - filled - 1).toNat pb.empty_char
  let load : List Char :=
    if filled ≠ (pb.length : ℤ) then [cycleChar pb.cycle] else []
  let cycle' : ℕ :=
    if filled ≠ (pb.length : ℤ) then pb.cycle + 1 else pb.cycle
  let bar : String := String.mk (left_fill ++ load ++ right_fill)
  let line : String := progressLine pb.pre bar percent pb.suffix
  ({ pb with cycle := cycle' },
    [line] ++ (if fraction = 1 then ["\n"] else []))

/-- Embedding of `ProgressBar.print_progress` (utils.py lines 104-125).
The gate `if self._timer.checktime != 0 and not self._timer.check(): return`
short-circuits: with `checktime = 0` the ticker is never consulted; the
normalisation `fraction /= total` (only when `total != 1`) raises
`ZeroDivisionError` in Python when `total` is zero. -/
def ProgressBar.print_progress (pb : ProgressBar) (now : ℚ) (fraction : ℚ)
    (total : ℚ := 1) : Except PyError (ProgressBar × List String) :=
  let gate : Bool × Timer :=
    if pb.timer.checktime ≠ 0 then pb.timer.check now else (true, pb.timer)
  if gate.1 = false then .ok ({ pb with timer := gate.2 }, [])
  else if total ≠ 1 ∧ total = 0 then
    .error (.zeroDivisionError "float division by zero")
  else
    let fraction : ℚ := if total ≠ 1 then fraction / total else fraction
    .ok (ProgressBar.renderFrame { pb with timer := gate.2 } fraction)

/-- Embedding of `ProgressBar.print_init` (utils.py lines 100-102):
`self.print_progress(0)` (subject to the usual gate) then
`self._timer.restart()`. -/
def ProgressBar.print_init (pb : ProgressBar) (now : ℚ) :
    Except PyError (ProgressBar × List String) :=
  (pb.print_progress now 0).map
    (fun r => ({ r.1 with timer := r.1.timer.restart now }, r.2))

/-! ## proxyget.get_file -/

/-- The mutable state of the download loop of `get_file` (proxyget.py lines
288-299): the running transferred-byte counter `total`, the renderer, the
progress text written so far, the `(total, size)` argument pairs passed to
`print_progress`, the number of chunks successfully written to the
destination file, and the index of the next clock reading. -/
structure LoopState where
  total : ℕ
  pbar : ProgressBar
  outs : List String
  calls : List (ℚ × ℚ)
  written : ℕ
  tick : ℕ
  deriving DecidableEq

/-- One pass of the `for chunk in response.iter_content(chunk_size)` body
(proxyget.py lines 291-299) per list element, with early exit on an
exception: `f.write(chunk)` on a text-mode sink raises `TypeError`, caught
and re-raised with the binary-mode hint; then `total += chunk_size`; then,
when the size is known and not quiet, `pbar.print_progress(total, size)`. -/
def loopGo (clock : ℕ → ℚ) (size? : Option ℚ) (binary quiet : Bool) :
    List (List ℕ) → LoopState → LoopState × Option PyError
  | [], st => (st, none)
  | _chunk :: rest, st =>
      if binary = false then
        (st, some (.typeError
          "trying to write bytes as unicode text - try running in binary (-b) mode"))
      else
        let total' : ℕ := st.total + 1024
        match size?, quiet with
        | some s, false =>
            match st.pbar.print_progress (clock st.tick) (total' : ℚ) s with
            | .error e =>
                ({ st with total := total', written := st.written + 1,
                           calls := st.calls ++ [((total' : ℚ), s)] }, some e)
            | .ok (pb', out) =>
                loopGo clock size? binary quiet rest
                  { total := total', pbar := pb', outs := st.outs ++ out,
                    calls := st.calls ++ [((total' : ℚ), s)],
                    written := st.written + 1, tick := st.tick + 1 }
        | _, _ =>
            loopGo clock size? binary quiet rest
              { st with total := total', written := st.written + 1 }

/-- The observable outcome of a `get_file` call: `print` output, progress
text written to the renderer's sink, the `print_progress` argument pairs,
chunks written, the final byte counter, whether no destination file handle
is left open (the `with open(...)` guarantees this on every path), and the
exception the call raised, if any. -/
structure GetFileResult where
  logs : List String
  progressOut : List String
  progressCalls : List (ℚ × ℚ)
  chunksWritten : ℕ
  total : ℕ
  fileClosed : Bool
  error : Option PyError
  deriving DecidableEq

/-- The phase of `get_file` before the destination file is opened
(proxyget.py lines 272-286): case-insensitive content-length lookup,
`float()` parse, `ProgressBar()` construction (clock reading 0), and either
the `Writing ...` log plus `pbar.print_init()` (clock reading 1) or the
missing-content-length notice.  Returns the parsed size, the log lines, the
renderer state and its output. -/
def get_file_pre (clock : ℕ → ℚ) (filename : String)
    (headers : List (String × String)) (quiet : Bool) :
    Except PyError (Option ℚ × List String × ProgressBar × List String) :=
  let sizeRaw : Option String := dict_get_ignore_case headers "content-length"
  let pbar : ProgressBar := ProgressBar.make (clock 0)
  match sizeRaw with
  | none =>
      if quiet then .ok (none, [], pbar, [])
      else .ok (none,
        ["Unable to get content-length from header (case insensitive)"],
        pbar, [])
  | some raw =>
      match pyFloat? raw with
      | none => .error (.valueError "could not convert string to float")
      | some size =>
          if quiet then .ok (some size, [], pbar, [])
          else
            match write_bytes size with
            | .error e => .error e
            | .ok sizeStr =>
                match pbar.print_init (clock 1) with
                | .error e => .error e
                | .ok (pbar', out) =>
                    .ok (some size,
                      ["Writing " ++ sizeStr ++ " to \"" ++ filename ++ "\""],
                      pbar', out)

/-- Embedding of `proxyget.get_file` (proxyget.py lines 263-301) for a
response with the given headers and body.  The body is chunked as
`response.iter_content(1024)` does; `binary` selects the `'wb'` or `'w'`
open mode.  After the loop, when the size was known and not quiet, the
source calls `pbar.print_end()` — `utils.ProgressBar` (utils.py lines
72-126) defines only `print_init` and `print_progress`, so Python attribute
lookup raises `AttributeError` there, which the embedding models
explicitly. -/
def get_file (clock : ℕ → ℚ) (filename : String)
    (headers : List (String × String)) (body : List ℕ)
    (binary : Bool) (quiet : Bool) : GetFileResult :=
  match get_file_pre clock filename headers quiet with
  | .error e =>
      { logs := [], progressOut := [], progressCalls := [], chunksWritten := 0,
        total := 0, fileClosed := true, error := some e }
  | .ok (size?, logs, pbar, outs) =>
      let chunks : List (List ℕ) := chunksOf 1024 body
      let st0 : LoopState :=
        { total := 0, pbar := pbar, outs := outs, calls := [],
          written := 0, tick := 2 }
      let r : LoopState × Option PyError :=
        loopGo clock size? binary quiet chunks st0
      let err? : Option PyError :=
        match r.2 with
        | some e => some e
        | none =>
            if size?.isSome ∧ quiet = false then
              some (.attributeError
                "ProgressBar object has no attribute print_end")
            else none
      { logs := logs, progressOut := r.1.outs, progressCalls := r.1.calls,
        chunksWritten := r.1.written, total := r.1.total,
        fileClosed := true, error := err? }

/-! ## Spec-modelled comparator for the automatic unit selection -/

/-- Modelled from the spec: the claimed auto-selection rule — scan the unit
table from largest (year) to smallest (nanosecond), pick the first unit
whose lower-bound threshold (yr 22896000, day 172800, hr 7200, min 120,
s 0.1, ms 1e-4, µs 1e-7, ns 1e-10 seconds) is at most the absolute
duration; below every threshold, scientific-notation seconds, except that
an exactly-zero duration uses nanoseconds. -/
def autoUnitSpec (d : ℚ) : String :=
  if 22896000 ≤ |d| then "y"
  else if 172800 ≤ |d| then "d"
  else if 7200 ≤ |d| then "h"
  else if 120 ≤ |d| then "m"
  else if 1/10 ≤ |d| then "s"
  else if 1/10000 ≤ |d| then "ms"
  else if 1/10000000 ≤ |d| then "us"
  else if 1/10000000000 ≤ |d| then "ns"
  else if d = 0 then "ns" else "e"

-- Decidable equality for `Except`, to evaluate embedded results on
-- concrete inputs.
deriving instance DecidableEq for Except

-- Batteries marks the rational-number arithmetic irreducible; restore
-- default transparency in this file so concrete runs of the embedding
-- reduce by `decide`.
attribute [local semireducible] Rat.mul Rat.inv Rat.add Rat.sub Rat.ofScientific

/-! ## Theorems -/

/-- C6: for every duration `d` with no explicit unit, the formatter's scan
of the unit table from largest to smallest, first-threshold-below-or-equal,
with the scientific-seconds fallback (nanoseconds for exactly zero),
coincides with the spec's selection rule and threshold table. -/
theorem autoUnit_matches_spec_selection (d : ℚ) :
    autoUnit |d| = autoUnitSpec d := by
  have hrev : time_units.reverse =
    [("y", TimeUnit.make "year" "yr" (1461 * 24 * 3600 / 4) (265 * 24 * 3600)),
     ("d", TimeUnit.make "day" "d" (24 * 3600) (48 * 3600)),
     ("h", TimeUnit.make "hour" "hr" 3600 (120 * 60)),
     ("m", TimeUnit.make "minute" "min" 60 120),
     ("s", TimeUnit.make "second" "s" 1 (1 / 10)),
     ("ms", TimeUnit.make "millisecond" "ms" (1 / 1000) (1 / 10000)),
     ("us", TimeUnit.make "microsecond" "μs" (1 / 1000000) (1 / 10000000)),
     ("ns", TimeUnit.make "nanosecond" "ns" (1 / 1000000000) (1 / 10000000000))]
    := by rfl
  rw [autoUnit, hrev, autoUnitSpec]
  rcases le_or_lt 22896000 |d| with h1 | h1
  · rw [List.find?_cons_of_pos _
      (by simp only [TimeUnit.make, decide_eq_true_eq]; norm_num; linarith),
      if_pos h1]
  · rw [List.find?_cons_of_neg _
      (by simp only [TimeUnit.make, decide_eq_true_eq]; norm_num; linarith),
      if_neg (not_le.mpr h1)]
    rcases le_or_lt 172800 |d| with h2 | h2
    · rw [List.find?_cons_of_pos _
        (by simp only [TimeUnit.make, decide_eq_true_eq]; norm_num; linarith),
        if_pos h2]
    · rw [List.find?_cons_of_neg _
        (by simp only [TimeUnit.make, decide_eq_true_eq]; norm_num; linarith),
        if_neg (not_le.mpr h2)]
      rcases le_or_lt 7200 |d| with h3 | h3
      · rw [List.find?_cons_of_pos _
          (by simp only [TimeUnit.make, decide_eq_true_eq]; norm_num; linarith),
          if_pos h3]
      · rw [List.find?_cons_of_neg _
          (by simp only [TimeUnit.make, decide_eq_true_eq]; norm_num; linarith),
          if_neg (not_le.mpr h3)]
        rcases le_or_lt 120 |d| with h4 | h4
        · rw [List.find?_cons_of_pos _
            (by simp only [TimeUnit.make, decide_eq_true_eq]; linarith),
            if_pos h4]
        · rw [List.find?_cons_of_neg _
            (by simp only [TimeUnit.make, decide_eq_true_eq]; linarith),
            if_neg (not_le.mpr h4)]
          rcases le_or_lt (1/10) |d| with h5 | h5
          · rw [List.find?_cons_of_pos _
              (by simp only [TimeUnit.make, decide_eq_true_eq]; linarith),
              if_pos h5]
          · rw [List.find?_cons_of_neg _
              (by simp only [TimeUnit.make, decide_eq_true_eq]; linarith),
              if_neg (not_le.mpr h5)]
            rcases le_or_lt (1/10000) |d| with h6 | h6
            · rw [List.find?_cons_of_pos _
                (by simp only [TimeUnit.make, decide_eq_true_eq]; linarith),
                if_pos h6]
            · rw [List.find?_cons_of_neg _
                (by simp only [TimeUnit.make, decide_eq_true_eq]; linarith),
                if_neg (not_le.mpr h6)]
              rcases le_or_lt (1/10000000) |d| with h7 | h7
              · rw [List.find?_cons_of_pos _
                  (by simp only [TimeUnit.make, decide_eq_true_eq]; linarith),
                  if_pos h7]
              · rw [List.find?_cons_of_neg _
                  (by simp only [TimeUnit.make, decide_eq_true_eq]; linarith),
                  if_neg (not_le.mpr h7)]
                rcases le_or_lt (1/10000000000) |d| with h8 | h8
                · rw [List.find?_cons_of_pos _
                    (by simp only [TimeUnit.make, decide_eq_true_eq]; linarith),
                    if_pos h8]
                · rw [List.find?_cons_of_neg _
                    (by simp only [TimeUnit.make, decide_eq_true_eq]; linarith),
                    if_neg (not_le.mpr h8), List.find?_nil]
                  by_cases h9 : d = 0
                  · simp [h9]
                  · simp [h9, abs_eq_zero]

/-- C2 counterexample: `time_diff_repr` applied to a duration of 0.0000005
seconds (500 nanoseconds) in long form at default precision with no
explicit unit does NOT return the string claimed by the spec,
`"500.0 nanoseconds"`. -/
theorem time_diff_500ns_not_nanoseconds :
    time_diff_repr (1/2000000) 0 none true 1 0 "" ≠
      Except.ok "500.0 nanoseconds" := by
  decide

/-- C2 amended: formatting a duration of 0.0000005 seconds (500
nanoseconds) in long form with default precision 1 and no explicit unit
auto-selects the microsecond unit (its threshold 1e-7 is at most 5e-7) and
returns the string `"0.5 microseconds"`. -/
theorem time_diff_500ns_microseconds :
    time_diff_repr (1/2000000) 0 none true 1 0 "" =
      Except.ok "0.5 microseconds" := by
  decide

/-- C7: `write_bytes 1536` at 2-digit precision does render `"1.50 kB"`
(scenario D, and the k-prefix band 1024 ≤ n < 1024² behaves as claimed),
but the claim's universal statement fails for byte counts below 1024: there
the selected dict key is `0` and `num / key` raises `ZeroDivisionError`
instead of printing the value with the empty prefix — evaluated here at the
failing input 500. -/
theorem write_bytes_scenarioD_and_small_sizes_crash :
    write_bytes 1536 2 false = Except.ok "1.50 kB" ∧
    write_bytes 500 2 false =
      Except.error (PyError.zeroDivisionError "float division by zero") := by
  constructor
  · decide
  · decide

/-- C8: with the bits flag set, `write_bytes 1536` yields `"1.50 b"`, not
the claimed `"1.50 kb"`: the conditional expression
`d[key] + 'B' if not bits else 'b'` binds as
`(d[key] + 'B') if not bits else 'b'`, so the magnitude prefix is dropped
even though the value is still scaled by the selected factor. -/
theorem write_bytes_bits_drops_magnitude :
    write_bytes 1536 2 true = Except.ok "1.50 b" := by
  decide

/-- C5: for every ticker state and clock reading, `Timer.check` returns
true and resets the gate reference timestamp to now exactly when the
elapsed time on the gate stopwatch strictly exceeds the configured
interval; otherwise it returns false and every field is unchanged. -/
theorem timer_check_gate (t : Timer) (now : ℚ) :
    ((Timer.check now t).1 = true ↔ t.checktime < t.checker.toc now) ∧
    ((Timer.check now t).1 = true →
      (Timer.check now t).2 = ⟨t.tic, t.checktime, ⟨now⟩⟩) ∧
    ((Timer.check now t).1 = false → (Timer.check now t).2 = t) := by
  unfold Timer.check Stopwatch.restart
  split_ifs with h <;> simp_all [gt_iff_lt]

/-- C5 witness: `timer_check_gate` evaluated for a timer created at time 0
with interval 1/2, checked at time 1. -/
theorem timer_check_gate_witness :
    (((Timer.check 1 (Timer.init 0 (1/2))).1 = true ↔
        (Timer.init 0 (1/2)).checktime <
          (Timer.init 0 (1/2)).checker.toc 1) ∧
    ((Timer.check 1 (Timer.init 0 (1/2))).1 = true →
      (Timer.check 1 (Timer.init 0 (1/2))).2 =
        ⟨(Timer.init 0 (1/2)).tic, (Timer.init 0 (1/2)).checktime, ⟨1⟩⟩) ∧
    ((Timer.check 1 (Timer.init 0 (1/2))).1 = false →
      (Timer.check 1 (Timer.init 0 (1/2))).2 = Timer.init 0 (1/2))) :=
  timer_check_gate (Timer.init 0 (1/2)) 1

/-- C3 counterexample: a default `ProgressBar` whose ticker was created at
time 0, with `print_init` called at time 0 (elapsed time 0, not exceeding
the 0.5-second update rate), renders NOTHING — the output list is empty and
the state is unchanged — contradicting the claim that the first render
bypasses the ticker gate whatever the elapsed time is. -/
theorem print_init_render_suppressed :
    (ProgressBar.make 0).print_init 0 =
      Except.ok (ProgressBar.make 0, ([] : List String)) := by
  decide

/-- C3 amended: `print_init` calls `print_progress(0)`, which is subject to
the ordinary ticker gate — it emits exactly one 0% frame when the update
rate is 0 or when strictly more than the update rate has elapsed on the
ticker, and emits nothing otherwise — and in either case then restarts the
ticker. -/
theorem print_init_gated (pb : ProgressBar) (now : ℚ) :
    ∃ pb' out, pb.print_init now = Except.ok (pb', out) ∧
      pb'.timer = pb.timer.restart now ∧
      ((pb.timer.checktime = 0 ∨ pb.timer.checktime < pb.timer.checker.toc now)
        → out = (pb.renderFrame 0).2) ∧
      (pb.timer.checktime ≠ 0 → pb.timer.checker.toc now ≤ pb.timer.checktime
        → out = []) ∧
      (pb.renderFrame 0).2.length = 1 := by
  have hlen : (pb.renderFrame 0).2.length = 1 := by
    simp [ProgressBar.renderFrame]
  unfold ProgressBar.print_init ProgressBar.print_progress Timer.check
  by_cases h0 : pb.timer.checktime = 0
  · refine ⟨{ (pb.renderFrame 0).1 with timer := pb.timer.restart now },
      (pb.renderFrame 0).2, ?_, rfl, fun _ => rfl,
      fun hne _ => absurd h0 hne, hlen⟩
    rw [if_neg (not_not_intro h0)]
    rfl
  · by_cases hf : pb.timer.checktime < pb.timer.checker.toc now
    · refine ⟨{ (pb.renderFrame 0).1 with timer := pb.timer.restart now },
        (pb.renderFrame 0).2, ?_, rfl, fun _ => rfl,
        fun _ hle => absurd hf (not_lt.mpr hle), hlen⟩
      rw [if_pos h0, if_pos hf]
      rfl
    · refine ⟨{ pb with timer := pb.timer.restart now }, [], ?_,
        rfl, ?_, fun _ _ => rfl, hlen⟩
      · rw [if_pos h0, if_neg hf]
        rfl
      · rintro (h | h)
        · exact absurd h h0
        · exact absurd h hf

/-- C3 witness: `print_init_gated` evaluated for a default `ProgressBar`
created at time 0 with `print_init` called at time 10. -/
theorem print_init_gated_witness :
    ∃ pb' out, (ProgressBar.make 0).print_init 10 = Except.ok (pb', out) ∧
      pb'.timer = (ProgressBar.make 0).timer.restart 10 ∧
      (((ProgressBar.make 0).timer.checktime = 0 ∨
          (ProgressBar.make 0).timer.checktime <
            (ProgressBar.make 0).timer.checker.toc 10)
        → out = ((ProgressBar.make 0).renderFrame 0).2) ∧
      ((ProgressBar.make 0).timer.checktime ≠ 0 →
        (ProgressBar.make 0).timer.checker.toc 10 ≤
          (ProgressBar.make 0).timer.checktime → out = []) ∧
      ((ProgressBar.make 0).renderFrame 0).2.length = 1 :=
  print_init_gated (ProgressBar.make 0) 10

/-- C10: for every fraction `0 ≤ f ≤ 1`, the bar drawn between the two pipe
characters of the rendered line consists of exactly `length` glyphs: the
floor of `f * length` fill glyphs, then one spinner glyph when the bar is
not full (none when it is full), then empty glyphs for the remainder — so
every rendered line of one download has a constant-width bar. -/
theorem renderFrame_bar (pb : ProgressBar) (f : ℚ) (h0 : 0 ≤ f) (h1 : f ≤ 1) :
    ∃ bar : String,
      (pb.renderFrame f).2 =
        progressLine pb.pre bar (pyFormatF (f * 100) pb.precision 0 "" ++ "%")
            pb.suffix :: (if f = 1 then ["\n"] else []) ∧
      bar.data =
        List.replicate (⌊f * pb.length⌋).toNat pb.progress_char ++
          (if (⌊f * pb.length⌋).toNat = pb.length then []
            else [cycleChar pb.cycle]) ++
          List.replicate (pb.length - (⌊f * pb.length⌋).toNat - 1)
            pb.empty_char ∧
      bar.length = pb.length := by
  have hL0 : (0:ℚ) ≤ (pb.length : ℚ) := by positivity
  have hfl0 : 0 ≤ f * (pb.length : ℚ) := mul_nonneg h0 hL0
  have hfloor : 0 ≤ ⌊f * (pb.length : ℚ)⌋ := Int.floor_nonneg.mpr hfl0
  have hfle : f * (pb.length : ℚ) ≤ (pb.length : ℚ) :=
    mul_le_of_le_one_left hL0 h1
  have hle : ⌊f * (pb.length : ℚ)⌋ ≤ (pb.length : ℤ) := by
    have h := Int.floor_le_floor hfle
    simpa using h
  have hpy : pyInt (f * (pb.length : ℚ)) = ⌊f * (pb.length : ℚ)⌋ :=
    if_pos hfl0
  unfold ProgressBar.renderFrame
  rw [hpy]
  by_cases hfull : ⌊f * (pb.length : ℚ)⌋ = (pb.length : ℤ)
  · refine ⟨_, rfl, ?_, ?_⟩
    · simp [hfull, String.data]
    · simp [hfull, String.length]
  · have hfullN : (⌊f * (pb.length : ℚ)⌋).toNat ≠ pb.length := by omega
    have hcount : ((pb.length : ℤ) - ⌊f * (pb.length : ℚ)⌋ - 1).toNat =
        pb.length - (⌊f * (pb.length : ℚ)⌋).toNat - 1 := by omega
    refine ⟨_, rfl, ?_, ?_⟩
    · simp [hfull, hfullN, hcount, String.data]
    · simp [hfull, hfullN, hcount, String.length]
      omega

/-- C10 witness: `renderFrame_bar` evaluated for a default `ProgressBar`
at fraction 1/2. -/
theorem renderFrame_bar_witness :
    ∃ bar : String,
      ((ProgressBar.make 0).renderFrame (1/2)).2 =
        progressLine (ProgressBar.make 0).pre bar
            (pyFormatF ((1/2) * 100) (ProgressBar.make 0).precision 0 "" ++ "%")
            (ProgressBar.make 0).suffix
          :: (if (1/2 : ℚ) = 1 then ["\n"] else []) ∧
      bar.data =
        List.replicate (⌊(1/2 : ℚ) * (ProgressBar.make 0).length⌋).toNat
            (ProgressBar.make 0).progress_char ++
          (if (⌊(1/2 : ℚ) * (ProgressBar.make 0).length⌋).toNat =
              (ProgressBar.make 0).length then []
            else [cycleChar (ProgressBar.make 0).cycle]) ++
          List.replicate ((ProgressBar.make 0).length -
              (⌊(1/2 : ℚ) * (ProgressBar.make 0).length⌋).toNat - 1)
            (ProgressBar.make 0).empty_char ∧
      bar.length = (ProgressBar.make 0).length :=
  renderFrame_bar (ProgressBar.make 0) (1/2) (by norm_num) (by norm_num)

/-! ## Supporting lemmas for the download-loop theorems -/

lemma print_progress_isOk (pb : ProgressBar) (now f total : ℚ)
    (h : total ≠ 0) :
    ∃ pb' out, pb.print_progress now f total = Except.ok (pb', out) := by
  unfold ProgressBar.print_progress
  have hne : ¬ (total ≠ 1 ∧ total = 0) := fun hc => h hc.2
  by_cases hct : pb.timer.checktime ≠ 0
  · rw [if_pos hct]
    by_cases hfired : (pb.timer.check now).1 = false
    · rw [if_pos hfired]
      exact ⟨_, _, rfl⟩
    · rw [if_neg hfired, if_neg hne]
      exact ⟨_, _, rfl⟩
  · rw [if_neg hct, if_neg (by simp), if_neg hne]
    exact ⟨_, _, rfl⟩

lemma print_init_isOk (pb : ProgressBar) (now : ℚ) :
    ∃ pb' out, pb.print_init now = Except.ok (pb', out) := by
  obtain ⟨pb', out, h⟩ := print_progress_isOk pb now 0 1 one_ne_zero
  exact ⟨_, _, by rw [ProgressBar.print_init, h]; rfl⟩

lemma write_bytes_ok (num : ℚ) (h : 1024 ≤ num) :
    ∃ out, write_bytes num 2 false = Except.ok out := by
  have hpw : pairwise byteKeys =
      [((0 : ℚ), (1024 : ℚ)), (1024, 1024 ^ 2), (1024 ^ 2, 1024 ^ 3),
       (1024 ^ 3, 1024 ^ 4)] := by rfl
  unfold write_bytes
  rw [if_neg (not_lt.mpr (by linarith)), hpw]
  rw [List.find?_cons_of_neg _ (by
    simp only [decide_eq_true_eq]
    rintro ⟨-, hb⟩
    linarith)]
  by_cases h2 : num < 1024 ^ 2
  · rw [List.find?_cons_of_pos _
      (by simp only [decide_eq_true_eq]; exact ⟨h, h2⟩)]
    rw [if_neg (by norm_num)]
    exact ⟨_, rfl⟩
  · rw [List.find?_cons_of_neg _ (by
      simp only [decide_eq_true_eq]; rintro ⟨-, hb⟩; exact h2 (by linarith))]
    by_cases h3 : num < 1024 ^ 3
    · rw [List.find?_cons_of_pos _ (by
        simp only [decide_eq_true_eq]
        exact ⟨le_of_not_lt h2, h3⟩)]
      rw [if_neg (by norm_num)]
      exact ⟨_, rfl⟩
    · rw [List.find?_cons_of_neg _ (by
        simp only [decide_eq_true_eq]; rintro ⟨-, hb⟩; exact h3 (by linarith))]
      by_cases h4 : num < 1024 ^ 4
      · rw [List.find?_cons_of_pos _ (by
          simp only [decide_eq_true_eq]
          exact ⟨le_of_not_lt h3, h4⟩)]
        rw [if_neg (by norm_num)]
        exact ⟨_, rfl⟩
      · rw [List.find?_cons_of_neg _ (by
          simp only [decide_eq_true_eq]; rintro ⟨-, hb⟩; exact h4 hb),
          List.find?_nil]
        rw [if_neg (by norm_num)]
        exact ⟨_, rfl⟩

lemma chunksOfGo_join {α : Type} (n : ℕ) (hn : 1 ≤ n) :
    ∀ (fuel : ℕ) (l : List α), l.length ≤ fuel →
      (chunksOfGo n fuel l).flatten = l := by
  intro fuel
  induction fuel with
  | zero =>
      intro l hl
      cases l with
      | nil => rfl
      | cons x xs => simp at hl
  | succ fuel ih =>
      intro l hl
      cases l with
      | nil => rfl
      | cons x xs =>
          rw [chunksOfGo, List.flatten_cons, ih ((x :: xs).drop n) (by
            rw [List.length_drop]
            simp only [List.length_cons] at hl ⊢
            omega)]
          exact List.take_append_drop n (x :: xs)

lemma chunksOfGo_mem_length {α : Type} (n : ℕ) :
    ∀ (fuel : ℕ) (l : List α) (c : List α),
      c ∈ chunksOfGo n fuel l → c.length ≤ n := by
  intro fuel
  induction fuel with
  | zero =>
      intro l c hc
      cases l <;> simp [chunksOfGo] at hc
  | succ fuel ih =>
      intro l c hc
      cases l with
      | nil => simp [chunksOfGo] at hc
      | cons x xs =>
          rw [chunksOfGo, List.mem_cons] at hc
          rcases hc with h | h
          · subst h
            simpa using List.length_take_le n (x :: xs)
          · exact ih _ _ h

lemma chunksOf_length_mul_ge (body : List ℕ) :
    body.length ≤ (chunksOf 1024 body).length * 1024 := by
  have hj := chunksOfGo_join 1024 (by norm_num) body.length body le_rfl
  have hlen : body.length = ((chunksOf 1024 body).map List.length).sum := by
    conv_lhs => rw [← hj]
    rw [List.length_flatten]
    rfl
  rw [hlen]
  have hb : ∀ x ∈ (chunksOf 1024 body).map List.length, x ≤ 1024 := by
    intro x hx
    obtain ⟨c, hc, rfl⟩ := List.mem_map.mp hx
    exact chunksOfGo_mem_length 1024 body.length body c hc
  calc ((chunksOf 1024 body).map List.length).sum
      ≤ ((chunksOf 1024 body).map List.length).length • 1024 :=
        List.sum_le_card_nsmul _ 1024 hb
    _ = (chunksOf 1024 body).length * 1024 := by
        simp [smul_eq_mul]

lemma loopGo_sized (clock : ℕ → ℚ) (s : ℚ) (hs : s ≠ 0) :
    ∀ (cs : List (List ℕ)) (st : LoopState),
      (loopGo clock (some s) true false cs st).2 = none ∧
      (loopGo clock (some s) true false cs st).1.total =
        st.total + cs.length * 1024 ∧
      (loopGo clock (some s) true false cs st).1.calls =
        st.calls ++ (List.range cs.length).map
          (fun i => (((st.total + (i + 1) * 1024 : ℕ) : ℚ), s)) ∧
      (loopGo clock (some s) true false cs st).1.written =
        st.written + cs.length := by
  intro cs
  induction cs with
  | nil =>
      intro st
      refine ⟨rfl, by simp [loopGo], by simp [loopGo], by simp [loopGo]⟩
  | cons c cs ih =>
      intro st
      obtain ⟨pb', out, hok⟩ :=
        print_progress_isOk st.pbar (clock st.tick) ((st.total + 1024 : ℕ) : ℚ)
          s hs
      rw [loopGo]
      rw [if_neg (by simp)]
      simp only []
      rw [hok]
      obtain ⟨ih1, ih2, ih3, ih4⟩ := ih
        { total := st.total + 1024, pbar := pb', outs := st.outs ++ out,
          calls := st.calls ++ [(((st.total + 1024 : ℕ) : ℚ), s)],
          written := st.written + 1, tick := st.tick + 1 }
      refine ⟨ih1, ?_, ?_, ?_⟩
      · rw [ih2]
        simp only [List.length_cons]
        ring
      · rw [ih3]
        simp only [List.length_cons, List.range_succ_eq_map, List.map_cons,
          List.map_map, List.append_assoc, List.singleton_append]
        congr 2
        refine List.map_congr_left ?_
        intro a _
        simp only [Function.comp_apply, Prod.mk.injEq]
        refine ⟨by push_cast; ring, trivial⟩
      · rw [ih4]
        simp only [List.length_cons]
        omega

lemma get_file_pre_sized (clock : ℕ → ℚ) (filename raw : String)
    (headers : List (String × String)) (s : ℕ)
    (hhdr : dict_get_ignore_case headers "content-length" none = some raw)
    (hraw : pyFloat? raw = some ((s : ℕ) : ℚ))
    (hs : 1024 ≤ s) :
    ∃ logs pb outs, get_file_pre clock filename headers false =
      Except.ok (some ((s : ℕ) : ℚ), logs, pb, outs) := by
  unfold get_file_pre
  simp only []
  rw [hhdr]
  simp only []
  rw [hraw]
  simp only [Bool.false_eq_true, if_false]
  obtain ⟨bstr, hwb⟩ := write_bytes_ok ((s : ℕ) : ℚ) (by exact_mod_cast hs)
  rw [hwb]
  obtain ⟨pb', out', hpi⟩ :=
    print_init_isOk (ProgressBar.make (clock 0)) (clock 1)
  rw [hpi]
  exact ⟨_, _, _, rfl⟩

/-- C4: in a sized, non-quiet, binary-mode download, the k-th
`print_progress` call receives the running counter `k * 1024` — the counter
is incremented by the fixed chunk size on every iteration, whatever the
final chunk's actual length — and when the declared size equals the body
length, is at least one chunk, and is not a multiple of 1024, the fraction
passed after the last chunk strictly exceeds 1. -/
theorem get_file_counter_overshoot (clock : ℕ → ℚ) (filename raw : String)
    (headers : List (String × String)) (body : List ℕ) (s : ℕ)
    (hhdr : dict_get_ignore_case headers "content-length" none = some raw)
    (hraw : pyFloat? raw = some ((s : ℕ) : ℚ))
    (hs : 1024 ≤ s) :
    (get_file clock filename headers body true false).total =
      (chunksOf 1024 body).length * 1024 ∧
    (get_file clock filename headers body true false).progressCalls =
      (List.range (chunksOf 1024 body).length).map
        (fun i => ((((i + 1) * 1024 : ℕ) : ℚ), ((s : ℕ) : ℚ))) ∧
    (body.length = s → ¬ (1024 ∣ s) →
      1 < (((chunksOf 1024 body).length * 1024 : ℕ) : ℚ) / ((s : ℕ) : ℚ)) := by
  have hs0 : ((s : ℕ) : ℚ) ≠ 0 := by
    have : (0 : ℕ) < s := by omega
    exact_mod_cast this.ne'
  obtain ⟨logs, pb, outs, hpre⟩ :=
    get_file_pre_sized clock filename raw headers s hhdr hraw hs
  obtain ⟨h1, h2, h3, h4⟩ := loopGo_sized clock ((s : ℕ) : ℚ) hs0
    (chunksOf 1024 body)
    { total := 0, pbar := pb, outs := outs, calls := [],
      written := 0, tick := 2 }
  refine ⟨?_, ?_, ?_⟩
  · unfold get_file
    rw [hpre]
    simp only []
    rw [h2]
    simp
  · unfold get_file
    rw [hpre]
    simp only []
    rw [h3]
    simp
  · intro hbody hdvd
    have hle : s ≤ (chunksOf 1024 body).length * 1024 := by
      rw [← hbody]
      exact chunksOf_length_mul_ge body
    have hne : s ≠ (chunksOf 1024 body).length * 1024 := by
      intro he
      exact hdvd ⟨(chunksOf 1024 body).length, by omega⟩
    have hlt : s < (chunksOf 1024 body).length * 1024 := lt_of_le_of_ne hle hne
    rw [one_lt_div (by exact_mod_cast (by omega : (0:ℕ) < s))]
    exact_mod_cast hlt

/-- C4 witness: `get_file_counter_overshoot` evaluated on a 2500-byte body
declared as `content-length: 2500` (3 chunks; 3072/2500 > 1). -/
theorem get_file_counter_overshoot_witness :
    (get_file (fun _ => 0) "o" [("Content-Length", "2500")]
        (List.replicate 2500 0) true false).total =
      (chunksOf 1024 (List.replicate 2500 (0 : ℕ))).length * 1024 ∧
    (get_file (fun _ => 0) "o" [("Content-Length", "2500")]
        (List.replicate 2500 0) true false).progressCalls =
      (List.range (chunksOf 1024 (List.replicate 2500 (0 : ℕ))).length).map
        (fun i => ((((i + 1) * 1024 : ℕ) : ℚ), ((2500 : ℕ) : ℚ))) ∧
    ((List.replicate 2500 (0 : ℕ)).length = 2500 → ¬ (1024 ∣ 2500) →
      1 < (((chunksOf 1024 (List.replicate 2500 (0 : ℕ))).length * 1024 : ℕ) :
            ℚ) / ((2500 : ℕ) : ℚ)) :=
  get_file_counter_overshoot (fun _ => 0) "o" "2500"
    [("Content-Length", "2500")] (List.replicate 2500 0) 2500
    (by decide) (by decide) (by norm_num)

/-- C9: when the pre-open phase succeeds and the destination is opened in
text mode while the stream yields at least one (binary) chunk, `get_file`
fails on the first chunk write with the `TypeError` advising binary mode,
zero chunks are written, and the destination handle is closed — as it is on
every exit path of `get_file`, which the final conjunct states for all
inputs. -/
theorem get_file_text_mode_mismatch (clock : ℕ → ℚ) (filename : String)
    (headers : List (String × String)) (body : List ℕ) (quiet : Bool)
    (pre : Option ℚ × List String × ProgressBar × List String)
    (hpre : get_file_pre clock filename headers quiet = Except.ok pre)
    (hbody : body ≠ []) :
    (get_file clock filename headers body false quiet).error =
      some (PyError.typeError
        "trying to write bytes as unicode text - try running in binary (-b) mode") ∧
    (get_file clock filename headers body false quiet).chunksWritten = 0 ∧
    (get_file clock filename headers body false quiet).fileClosed = true ∧
    ∀ (clock' : ℕ → ℚ) (fn' : String) (h' : List (String × String))
      (b' : List ℕ) (bin' q' : Bool),
      (get_file clock' fn' h' b' bin' q').fileClosed = true := by
  obtain ⟨sz, lgs, pb, outs⟩ := pre
  have hch : ∃ c cs, chunksOf 1024 body = c :: cs := by
    cases body with
    | nil => exact absurd rfl hbody
    | cons x xs => exact ⟨_, _, rfl⟩
  obtain ⟨c, cs, hch⟩ := hch
  refine ⟨?_, ?_, ?_, ?_⟩
  · unfold get_file
    rw [hpre]
    simp only []
    rw [hch, loopGo, if_pos rfl]
  · unfold get_file
    rw [hpre]
    simp only []
    rw [hch, loopGo, if_pos rfl]
  · unfold get_file
    rw [hpre]
  · intro clock' fn' h' b' bin' q'
    unfold get_file
    cases get_file_pre clock' fn' h' q' with
    | error e => rfl
    | ok val => rfl

/-- C9 witness: `get_file_text_mode_mismatch` evaluated on a one-byte
binary body with no content-length header, text mode, not quiet. -/
theorem get_file_text_mode_mismatch_witness :
    (get_file (fun _ => 0) "f" [] [7] false false).error =
      some (PyError.typeError
        "trying to write bytes as unicode text - try running in binary (-b) mode") ∧
    (get_file (fun _ => 0) "f" [] [7] false false).chunksWritten = 0 ∧
    (get_file (fun _ => 0) "f" [] [7] false false).fileClosed = true ∧
    ∀ (clock' : ℕ → ℚ) (fn' : String) (h' : List (String × String))
      (b' : List ℕ) (bin' q' : Bool),
      (get_file clock' fn' h' b' bin' q').fileClosed = true :=
  get_file_text_mode_mismatch (fun _ => 0) "f" [] [7] false
    (none, ["Unable to get content-length from header (case insensitive)"],
      ProgressBar.make 0, [])
    (by decide) (by decide)

lemma chunksOfGo_irrel {α : Type} (n : ℕ) (hn : 1 ≤ n) :
    ∀ (fuel1 fuel2 : ℕ) (l : List α), l.length ≤ fuel1 → l.length ≤ fuel2 →
      chunksOfGo n fuel1 l = chunksOfGo n fuel2 l := by
  intro fuel1
  induction fuel1 with
  | zero =>
      intro fuel2 l h1 h2
      cases l with
      | nil => cases fuel2 <;> rfl
      | cons x xs => simp at h1
  | succ f1 ih =>
      intro fuel2 l h1 h2
      cases l with
      | nil => cases fuel2 <;> rfl
      | cons x xs =>
          cases fuel2 with
          | zero => simp at h2
          | succ f2 =>
              rw [chunksOfGo, chunksOfGo]
              congr 1
              refine ih f2 ((x :: xs).drop n) ?_ ?_ <;>
                simp only [List.length_drop, List.length_cons] at h1 h2 ⊢ <;>
                omega

lemma chunksOf_append_left {α : Type} (n : ℕ) (hn : 1 ≤ n)
    (l1 l2 : List α) (h1 : l1.length = n) :
    chunksOf n (l1 ++ l2) = l1 :: chunksOf n l2 := by
  cases l1 with
  | nil => simp at h1; omega
  | cons x xs =>
      have hcons : (x :: xs) ++ l2 = x :: (xs ++ l2) := rfl
      unfold chunksOf
      rw [hcons]
      have hlen : (x :: (xs ++ l2)).length = (xs ++ l2).length + 1 := by
        simp
      rw [hlen, chunksOfGo]
      congr 1
      · rw [← hcons, List.take_left' h1]
      · rw [← hcons, List.drop_left' h1]
        refine chunksOfGo_irrel n hn _ _ l2 ?_ ?_ <;> simp <;> omega

set_option maxRecDepth 8192 in
lemma chunks_replicate_2048 :
    chunksOf 1024 (List.replicate 2048 (0 : ℕ)) =
      [List.replicate 1024 0, List.replicate 1024 0] := by
  have hadd : (2048 : ℕ) = 1024 + 1024 := by norm_num
  have h2048 : List.replicate 2048 (0 : ℕ) =
      List.replicate 1024 0 ++ List.replicate 1024 0 := by
    rw [hadd, List.replicate_add]
  rw [h2048, chunksOf_append_left 1024 (by norm_num) _ _
    (by rw [List.length_replicate])]
  congr 1

/-- C1: end-to-end scenario A — a 2048-byte body with a case-variant
content-length header of 2048 and chunk size 1024 performs exactly 2 chunk
writes, with progress driven at (1024, 2048) then (2048, 2048); but instead
of rendering a final 100% frame and returning normally, the call raises
`AttributeError`, because `get_file` ends with `pbar.print_end()` and
`utils.ProgressBar` defines no `print_end` method. -/
theorem get_file_scenarioA_attribute_error :
    (get_file (fun _ => 0) "out.bin" [("Content-Length", "2048")]
        (List.replicate 2048 0) true false).error =
      some (PyError.attributeError
        "ProgressBar object has no attribute print_end") ∧
    (get_file (fun _ => 0) "out.bin" [("Content-Length", "2048")]
        (List.replicate 2048 0) true false).chunksWritten = 2 ∧
    (get_file (fun _ => 0) "out.bin" [("Content-Length", "2048")]
        (List.replicate 2048 0) true false).progressCalls =
      [(1024, 2048), (2048, 2048)] := by
  obtain ⟨logs, pb, outs, hpre⟩ :=
    get_file_pre_sized (fun _ => 0) "out.bin" "2048"
      [("Content-Length", "2048")] 2048 (by decide) (by decide) (by norm_num)
  obtain ⟨h1, h2, h3, h4⟩ := loopGo_sized (fun _ => 0) ((2048 : ℕ) : ℚ)
    (by norm_num) (chunksOf 1024 (List.replicate 2048 (0 : ℕ)))
    { total := 0, pbar := pb, outs := outs, calls := [],
      written := 0, tick := 2 }
  have hk : (chunksOf 1024 (List.replicate 2048 (0 : ℕ))).length = 2 := by
    rw [chunks_replicate_2048]
    rfl
  refine ⟨?_, ?_, ?_⟩
  · unfold get_file
    rw [hpre]
    simp only []
    rw [h1]
    simp
  · unfold get_file
    rw [hpre]
    simp only []
    rw [h4, hk]
  · unfold get_file
    rw [hpre]
    simp only []
    rw [h3, hk]
    norm_num [List.range_succ]
